import Mathlib

/-!
Verification development for the constrained-type and tree-node engine of
pyangbind (src/pyangbind/lib/yangtypes.py).  Every definition below is a
shallow embedding of a function or class of that file; line numbers in the
doc comments refer to it.  Machine integers are modelled as Int, Python
exceptions as the explicit Res result type.
-/

namespace Yangtypes

/-- Error taxonomy: each constructor stands for one Python exception raised
by yangtypes.py (ValueError for failed restriction checks, TypeError for an
unsupported comparison, AttributeError for a missing attribute, and so on). -/
inductive Err
  | invalidValue
  | typeError
  | nameError
  | invalidMember
  | uniqueError
  | unmappedChoice
  | keyError
  | danglingRef
  | invalidPtr
  | attrError
  deriving DecidableEq, Repr

/-- Result of a Python call: a value or a raised exception. -/
inductive Res (α : Type)
  | ok (a : α)
  | err (e : Err)
  deriving DecidableEq, Repr

/-- A Python scalar value handled by the restricted classes: the base types
exercised by the claims are int and the text type. -/
inductive PyVal
  | int (n : Int)
  | str (s : String)
  deriving DecidableEq, Repr

def PyVal.isStr : PyVal → Bool
  | .str _ => true
  | .int _ => false

/-- six.text_type(v): the textual form of a value. -/
def pyText : PyVal → String
  | .int n => toString n
  | .str s => s

/-- The base_type parameter of RestrictedClassType (restricted to the two
base kinds the claims exercise). -/
inductive BType
  | int
  | str
  deriving DecidableEq, Repr

/-- One decimal digit. -/
def decDigit? (c : Char) : Option Nat :=
  if 48 ≤ c.toNat ∧ c.toNat ≤ 57 then some (c.toNat - 48) else none

/-- The digits of a decimal literal, most significant first. -/
def digitsVal : List Char → Nat → Option Nat
  | [], acc => some acc
  | c :: rest, acc =>
    match decDigit? c with
    | some d => digitsVal rest (acc * 10 + d)
    | none => none

/-- int(s) on a string: accepts an optionally sign-prefixed decimal
literal, raises ValueError (none) on anything else. -/
def pyIntOfString (s : String) : Option Int :=
  match s.data with
  | [] => none
  | '-' :: rest =>
    match rest with
    | [] => none
    | _ => (digitsVal rest 0).map (fun n => -(n : Int))
  | l => (digitsVal l 0).map (fun n => (n : Int))

/-- base_type(v): the Python conversion call.  int of a non-numeric string
raises ValueError, modelled as none. -/
def BType.conv : BType → PyVal → Option PyVal
  | .int, .int n => some (.int n)
  | .int, .str s => (pyIntOfString s).map PyVal.int
  | .str, .int n => some (.str (toString n))
  | .str, .str s => some (.str s)

/-- base_type(): the no-argument base constructor (int gives 0, the text
type gives the empty string). -/
def BType.defaultVal : BType → PyVal
  | .int => .int 0
  | .str => .str ""

/-- One sub-spec produced by build_length_range_tuples (lines 270-288): a
two-element (low, high) tuple where none means the literal min/max, or a
one-element equality tuple. -/
inductive RTuple
  | lowHigh (lo hi : Option Int)
  | single (v : Int)
  deriving DecidableEq, Repr

/-- The body of range_check for one tuple (lines 298-310). -/
def rtupleCheck (value : Int) : RTuple → Bool
  | .lowHigh lo hi =>
    (match lo with
     | some l => decide (l ≤ value)
     | none => true) &&
    (match hi with
     | some h => decide (value ≤ h)
     | none => true)
  | .single v => value == v

/-- in_range_check (lines 290-313): a value passes when it matches any of
the configured sub-spec tuples (union semantics, True in range_results). -/
def inRangeCheck (tuples : List RTuple) (value : Int) : Bool :=
  tuples.any (rtupleCheck value)

/-- One restriction test appended to _restriction_tests (lines 340-384).
The compiled regex of a pattern restriction is external (the regex
library), so a pattern is carried as an abstract predicate on strings;
range and length sub-specs are carried post-parse as tuples; dict_key
carries the accepted key strings. -/
inductive RTest
  | pattern (p : String → Bool)
  | range (tuples : List RTuple)
  | length (tuples : List RTuple)
  | dictKey (keys : List String)

/-- Whether a test is a range test (a range category in the restriction
dictionary triggers the base_type conversion of the value, lines 348-352). -/
def RTest.isRange : RTest → Bool
  | .range _ => true
  | _ => false

/-- Running one restriction test on a value.  none models a TypeError from
an unsupported comparison (ordering a string against an int bound, len of
an int); match_pattern_check returns False on a non-string value (lines
317-319); in_dictionary_check compares the text form (line 327). -/
def runTest : RTest → PyVal → Option Bool
  | .pattern p, .str s => some (p s)
  | .pattern _, .int _ => some false
  | .range ts, .int n => some (inRangeCheck ts n)
  | .range _, .str _ => none
  | .length ts, .str s => some (inRangeCheck ts (Int.ofNat s.length))
  | .length _, .int _ => none
  | .dictKey ks, v => some (decide (pyText v ∈ ks))

/-- The test loop of RestrictedClass.__new__ (lines 386-391): tests run in
order until the first one that passes; a test raising propagates. -/
def orLoop : List RTest → PyVal → Res Bool
  | [], _ => .ok false
  | t :: ts, v =>
    match runTest t v with
    | none => .err .typeError
    | some true => .ok true
    | some false => orLoop ts v

/-- The passed flag of RestrictedClass.__new__ (lines 386-393): with an
empty test list the local variable passed is never assigned and Python
raises NameError at the final check. -/
def newCheck (tests : List RTest) (v : PyVal) : Res Bool :=
  match tests with
  | [] => .err .nameError
  | t :: ts => orLoop (t :: ts) v

/-- The test loop of RestrictedClass.__check (lines 406-409): every test
must pass; the first failing test raises ValueError. -/
def andLoop : List RTest → PyVal → Res Unit
  | [], _ => .ok ()
  | t :: ts, v =>
    match runTest t v with
    | none => .err .typeError
    | some false => .err .invalidValue
    | some true => andLoop ts v

/-- The restriction configuration of one RestrictedClassType instantiation:
the base type plus the tests built from the restriction dictionary, in
dictionary order.  The string parsing of range/length sub-specs (lines
270-288) happens while the tests are built and is modelled post-parse. -/
structure RSpec where
  base : BType
  tests : List RTest

def hasRangeTest (tests : List RTest) : Bool :=
  tests.any RTest.isRange

/-- RestrictedClass.__check (lines 401-410): convert the raw argument with
base_type, then require every restriction test to pass. -/
def checkFn (spec : RSpec) (v : PyVal) : Res Unit :=
  match spec.base.conv v with
  | none => .err .invalidValue
  | some w => andLoop spec.tests w

/-- RestrictedClass.__new__ (lines 235-399).  With no argument, val stays
False and every check is skipped; base_type.__new__ with no argument
yields the base default (lines 329-333, 395-399).  With an argument: a
range category converts the value with base_type first (lines 348-352),
the OR test loop must find one passing test (lines 386-393), and the final
base_type.__new__ converts the original argument. -/
def rcNew (spec : RSpec) (v? : Option PyVal) : Res PyVal :=
  match v? with
  | none => .ok spec.base.defaultVal
  | some v0 =>
    match (if hasRangeTest spec.tests then spec.base.conv v0 else some v0) with
    | none => .err .invalidValue
    | some v =>
      match newCheck spec.tests v with
      | .err e => .err e
      | .ok false => .err .invalidValue
      | .ok true =>
        match spec.base.conv v0 with
        | none => .err .invalidValue
        | some w => .ok w

/-- Construction of a RestrictedClass instance: Python runs __new__ and
then __init__ (lines 220-233), and __init__ re-validates the argument with
__check, catching only IndexError (the no-argument case). -/
def rcConstruct (spec : RSpec) (v? : Option PyVal) : Res PyVal :=
  match rcNew spec v? with
  | .err e => .err e
  | .ok obj =>
    match v? with
    | none => .ok obj
    | some v =>
      match checkFn spec v with
      | .err e => .err e
      | .ok _ => .ok obj

/-- YANGDynClass construction of a leaf wrapping a restricted base type,
together with the external PathIndex state (the list of registered paths).
YANGBaseClass.__new__ delegates to the base __new__ (lines 1086-1090);
YANGBaseClass.__init__ registers the supplied path (lines 1138-1145,
specialised to a leaf with a path helper, register_paths true and a
supplied register path) and only then delegates to the base __init__
(lines 1152-1155), whose __check may still raise. -/
def dynConstruct (spec : RSpec) (regPath : String) (helper : List String)
    (v? : Option PyVal) : Res PyVal × List String :=
  match rcNew spec v? with
  | .err e => (.err e, helper)
  | .ok obj =>
    let helper2 := regPath :: helper
    match v? with
    | none => (.ok obj, helper2)
    | some v =>
      match checkFn spec v with
      | .err e => (.err e, helper2)
      | .ok _ => (.ok obj, helper2)

/-- The while loop `while c in used_values: c += 1` of the dict_key branch
(lines 376-377), fuel-bounded: used.length + 1 steps always suffice
because each hit consumes a distinct member of used. -/
def skipUsed : Nat → List Int → Nat → Nat
  | c, _, 0 => c
  | c, used, fuel + 1 => if (c : Int) ∈ used then skipUsed (c + 1) used fuel else c

/-- used_values (lines 370-373): the explicit integer values carried by
entries of the (already @-filtered) enumeration dictionary. -/
def enumUsedValues (entries : List (String × Option Int)) : List Int :=
  entries.filterMap (·.2)

/-- The per-entry loop of the dict_key branch (lines 374-380): before each
entry the counter is advanced past the used values, an entry lacking an
explicit value receives the counter, and the counter then advances by one
for every entry, explicit or not. -/
def autoGo (used : List Int) : List (String × Option Int) → Nat → List (String × Int)
  | [], _ => []
  | (k, some v) :: rest, c =>
    (k, v) :: autoGo used rest (skipUsed c used (used.length + 1) + 1)
  | (k, none) :: rest, c =>
    let c2 := skipUsed c used (used.length + 1)
    (k, (c2 : Int)) :: autoGo used rest (c2 + 1)

/-- k.startswith("@") for the one-character prefix: the first character
of the key is @. -/
def atPrefixed (s : String) : Bool :=
  match s.data with
  | [] => false
  | c :: _ => c = '@'

/-- The dict_key enumeration population of RestrictedClass.__new__ (lines
364-382): entries whose key starts with @ are dropped, then values are
assigned by the counter loop. -/
def autoNumber (entries : List (String × Option Int)) : List (String × Int) :=
  autoGo (enumUsedValues (entries.filter (fun e => !atPrefixed e.1)))
    (entries.filter (fun e => !atPrefixed e.1)) 0

/-- Enumeration numbering as the claim words it, for comparison with
autoNumber: entries lacking an explicit value are numbered from 0 in
declaration order, skipping only the integers already claimed by entries
carrying explicit values (an explicit entry does not advance the counter). -/
def autoSpecGo (used : List Int) : List (String × Option Int) → Nat → List (String × Int)
  | [], _ => []
  | (k, some v) :: rest, c => (k, v) :: autoSpecGo used rest c
  | (k, none) :: rest, c =>
    let c2 := skipUsed c used (used.length + 1)
    (k, (c2 : Int)) :: autoSpecGo used rest (c2 + 1)

/-- The numbering described by the claim, applied to an @-filtered
enumeration dictionary. -/
def autoNumberSpec (entries : List (String × Option Int)) : List (String × Int) :=
  autoSpecGo (enumUsedValues (entries.filter (fun e => !atPrefixed e.1)))
    (entries.filter (fun e => !atPrefixed e.1)) 0

/-- int(precision) for the precision argument of
RestrictedPrecisionDecimalType (line 149): the sentinel False (modelled as
none) converts to 0. -/
def precDigits : Option Nat → Nat
  | none => 0
  | some n => n

/-- The number of fractional digits of Decimal(str(self._precision)) (line
160), where _precision = 10.0 ** (-int(precision)) (line 149): for
precision 0 the float prints as "1.0", one fractional digit; for
1 ≤ d ≤ 18 (the YANG fraction-digits range) the float prints with
exponent -d. -/
def quantDigits (d : Nat) : Nat :=
  if d = 0 then 1 else d

/-- ROUND_HALF_EVEN, the default rounding of Decimal.quantize: round to
the nearest integer, ties to the even neighbour. -/
def roundHalfEven (x : ℚ) : ℤ :=
  let f := ⌊x⌋
  if x - f < 1 / 2 then f
  else if 1 / 2 < x - f then f + 1
  else if Even f then f else f + 1

/-- Decimal.quantize to k fractional digits. -/
def decimalQuantize (q : ℚ) (k : Nat) : ℚ :=
  (roundHalfEven (q * 10 ^ k) : ℚ) / 10 ^ k

/-- RestrictedPrecisionDecimal.__new__ (lines 152-170) on an
already-parsed decimal argument.  _precision is a float and therefore
never None, so the branch `elif len(args): value = Decimal(args[0])` that
would skip the rounding is unreachable: every supplied value is quantized,
also under the sentinel precision=False. -/
def rpdNew (precision : Option Nat) (v? : Option ℚ) : ℚ :=
  match v? with
  | some q => decimalQuantize q (quantDigits (precDigits precision))
  | none => 0

/-- The no-rounding construction the claim describes for the sentinel "no
precision" configuration: the supplied value is cast unchanged. -/
def rpdNewSpecNoPrecision (v? : Option ℚ) : ℚ :=
  match v? with
  | some q => q
  | none => 0

/-- How a TypedList candidate type behaves in the branch chain of
TypedList.check (lines 487-516) when the value is not already an instance:
a pybind-generated type whose _pybind_generated_by tag is in the accepted
list is wrapped (which constructs it from the value); a pybind-generated
type with another tag is skipped; the text type accepts string values
only; any other plain type is called on the value. -/
inductive CandKind
  | pybindWrapped
  | pybindOther
  | textType
  | plain

/-- One member of the allowed_type tuple of a TypedListType.  instOf is
isinstance(v, i); wrap is dyn_wrapper(i) applied to the value (lines
470-486), which re-runs the restricted construction and may fail;
construct is the plain call i(v), which may fail. -/
structure Cand where
  instOf : PyVal → Bool
  kind : CandKind
  wrap : PyVal → Option PyVal
  construct : PyVal → Option PyVal

/-- The non-isinstance part of one iteration of the candidate loop of
TypedList.check (lines 492-510), all of it inside the try whose failures
are swallowed: none means the candidate did not accept the value. -/
def nonInstFit (c : Cand) (v : PyVal) : Option PyVal :=
  match c.kind with
  | .pybindWrapped => c.wrap v
  | .pybindOther => none
  | .textType => if v.isStr then c.wrap v else none
  | .plain => c.construct v

/-- One iteration of the candidate loop of TypedList.check (lines
487-516).  The isinstance branch (lines 488-491) sits outside the try, so
a wrapping failure there propagates; every other failure is swallowed and
reported as no fit. -/
def fitCand (c : Cand) (v : PyVal) : Res (Option PyVal) :=
  if c.instOf v then
    match c.wrap v with
    | some w => .ok (some w)
    | none => .err .invalidValue
  else .ok (nonInstFit c v)

/-- The candidate loop of TypedList.check (lines 487-518): candidates are
tried in declared order and the first fit wins; no fit raises the
InvalidMember error. -/
def firstFit : List Cand → PyVal → Res PyVal
  | [], _ => .err .invalidMember
  | c :: rest, v =>
    match fitCand c v with
    | .err e => .err e
    | .ok (some w) => .ok w
    | .ok none => firstFit rest v

/-- Whether a candidate accepts a value, as the claim words it: it
exact-type-matches, or it successfully constructs from the value. -/
def candAccepts (c : Cand) (v : PyVal) : Option PyVal :=
  if c.instOf v then c.wrap v else nonInstFit c v

/-- First-fit insertion as the claim words it, for comparison with
firstFit: the first candidate accepting the value wins, single-candidate
failures are swallowed, and no accepting candidate is the InvalidMember
error. -/
def firstFitSpec (cands : List Cand) (v : PyVal) : Res PyVal :=
  match cands.findSome? (fun c => candAccepts c v) with
  | some w => .ok w
  | none => .err .invalidMember

/-- TypedList.check (lines 461-520): the uniqueness short circuit (lines
463-464) runs before any candidate coercion, then the candidate loop.
Stored elements are modelled by their scalar value; Python membership
compares by equality, which the wrapped elements delegate to the base
value. -/
def tlCheck (cands : List Cand) (uniq : Bool) (lst : List PyVal) (v : PyVal) :
    Res PyVal :=
  if uniq ∧ v ∈ lst then .err .uniqueError
  else firstFit cands v

/-- Python list.insert semantics: the index is clamped to the list length. -/
def listInsertAt : Nat → PyVal → List PyVal → List PyVal
  | _, v, [] => [v]
  | 0, v, xs => v :: xs
  | n + 1, v, x :: xs => x :: listInsertAt n v xs

/-- TypedList.insert (lines 534-536): check the value (raising on a
duplicate in uniqueness mode, before coercion), then insert it. -/
def tlInsert (cands : List Cand) (uniq : Bool) (lst : List PyVal) (i : Nat)
    (v : PyVal) : Res (List PyVal) :=
  match tlCheck cands uniq lst v with
  | .err e => .err e
  | .ok w => .ok (listInsertAt i w lst)

/-- TypedList.append (lines 538-541): in uniqueness mode a value already
present is silently skipped (the guard fails and nothing runs); otherwise
the value is checked and appended. -/
def tlAppend (cands : List Cand) (uniq : Bool) (lst : List PyVal) (v : PyVal) :
    Res (List PyVal) :=
  if uniq ∧ v ∈ lst then .ok lst
  else
    match tlCheck cands uniq lst v with
    | .err e => .err e
    | .ok w => .ok (lst ++ [w])

/-- The list-initialisation loop of TypedList.__init__ (lines 450-456): in
uniqueness mode an input value already accumulated is silently skipped;
check is called while self._list is still empty, so its own uniqueness
short circuit never fires here. -/
def tlInitGo (cands : List Cand) (uniq : Bool) :
    List PyVal → List PyVal → Res (List PyVal)
  | [], acc => .ok acc
  | v :: rest, acc =>
    if uniq ∧ v ∈ acc then tlInitGo cands uniq rest acc
    else
      match tlCheck cands uniq [] v with
      | .err e => .err e
      | .ok w => tlInitGo cands uniq rest (acc ++ [w])

/-- TypedList.__init__ from a Python list argument (lines 446-456). -/
def tlInit (cands : List Cand) (uniq : Bool) (vs : List PyVal) :
    Res (List PyVal) :=
  tlInitGo cands uniq vs []

/-- The int candidate of a TypedListType over (int,): isinstance tests for
int, the plain call int(v) parses a decimal string and rejects anything
else, and wrapping an accepted value succeeds. -/
def intCand : Cand where
  instOf := fun v => match v with | .int _ => true | .str _ => false
  kind := .plain
  wrap := fun v => some v
  construct := fun v =>
    match v with
    | .int n => some (.int n)
    | .str s => (pyIntOfString s).map PyVal.int

/-- The _choice attribute of a node taking part in a choice/case group: a
pair of the nested choice names and the nested case names in use, from
outermost to innermost (the tuples unpacked at line 1177). -/
structure ChoiceCtx where
  choices : List String
  cases : List String
  deriving DecidableEq, Repr

/-- A YANGBaseClass instance as the change-tracking claims see it: the
changed flag _mchanged, the presence declaration and the presence-active
flag _cpresent, the _choice attribute, the __choices__ mapping from a
nested-choices prefix to the (case tuple, field names) pairs of that
choice, and the set of field names for which a _unset hook exists. -/
structure TNode where
  mchanged : Bool
  presence : Bool
  cpresent : Bool
  isContainer : Bool
  choice : Option ChoiceCtx
  choicesMap : List (List String × List (List String × List String))
  hooks : List String
  deriving DecidableEq, Repr

/-- Dictionary lookup in the __choices__ mapping (line 1180): a missing
prefix key would be a Python KeyError. -/
def lookupChoices :
    List (List String × List (List String × List String)) → List String →
    Option (List (List String × List String))
  | [], _ => none
  | (k, v) :: rest, key => if k = key then some v else lookupChoices rest key

/-- The inner field loop of _set (lines 1184-1189): every field of an
evicted case must have its _unset hook, and each hook is invoked in
order; a missing hook raises the unmapped-choice error.  The returned
list records the invoked hooks. -/
def fieldsEvict : List String → List String → Res (List String)
  | [], _ => .ok []
  | f :: fs, hooks =>
    if f ∈ hooks then
      match fieldsEvict fs hooks with
      | .err e => .err e
      | .ok more => .ok (f :: more)
    else .err .unmappedChoice

/-- The case loop of _set at one nesting level (lines 1180-1189): the case
tuple currently in use is skipped, every field of every other case is
evicted. -/
def entriesEvict (entries : List (List String × List String))
    (used : List String) (hooks : List String) : Res (List String) :=
  match entries with
  | [] => .ok []
  | (cs, fields) :: rest =>
    if cs = used then entriesEvict rest used hooks
    else
      match fieldsEvict fields hooks with
      | .err e => .err e
      | .ok done =>
        match entriesEvict rest used hooks with
        | .err e => .err e
        | .ok more => .ok (done ++ more)

/-- One nesting level of the eviction loop of _set (lines 1178-1189). -/
def evictLevel (n : TNode) (ctx : ChoiceCtx) (lvl : Nat) : Res (List String) :=
  match lookupChoices n.choicesMap (ctx.choices.take lvl) with
  | none => .err .keyError
  | some entries => entriesEvict entries (ctx.cases.take lvl) n.hooks

/-- The nesting-level loop of _set: `for nesting_level in
reversed(range(1, 1 + len(nested_choices)))` (line 1178), so level
lvl, lvl-1, ..., 1, innermost prefix first. -/
def evictGo (n : TNode) (ctx : ChoiceCtx) : Nat → Res (List String)
  | 0 => .ok []
  | lvl + 1 =>
    match evictLevel n ctx (lvl + 1) with
    | .err e => .err e
    | .ok xs =>
      match evictGo n ctx lvl with
      | .err e => .err e
      | .ok ys => .ok (xs ++ ys)

/-- The whole choice-eviction phase of _set (lines 1176-1189). -/
def evictAll (n : TNode) (ctx : ChoiceCtx) : Res (List String) :=
  evictGo n ctx ctx.choices.length

/-- The local state transition of _set (lines 1191-1194): the changed flag
is raised, and on a presence container the presence-active flag as well. -/
def markNode (n : TNode) : TNode :=
  { n with mchanged := true, cpresent := if n.presence then true else n.cpresent }

/-- YANGBaseClass._set on one node (lines 1175-1194), without the parent
call: eviction when a choice argument is given, then the flag updates.
The returned list records the invoked eviction hooks. -/
def nodeSet (n : TNode) (choiceArg : Option ChoiceCtx) :
    Res (TNode × List String) :=
  match choiceArg with
  | none =>
    .ok (markNode n, [])
  | some ctx =>
    match evictAll n ctx with
    | .err e => .err e
    | .ok ev => .ok (markNode n, ev)

/-- The parent recursion of _set (lines 1196-1197) over the ancestor
chain of a node, listed from the node itself up to the root (where
_parent is False or None and the recursion stops): each node runs its own
transition and then calls the parent with its own _choice attribute. -/
def setChain : List TNode → Option ChoiceCtx → Res (List TNode)
  | [], _ => .ok []
  | n :: ancestors, choiceArg =>
    match nodeSet n choiceArg with
    | .err e => .err e
    | .ok (n2, _) =>
      match setChain ancestors n.choice with
      | .err e => .err e
      | .ok rest => .ok (n2 :: rest)

/-- The mutating operations of the claims: value assignment (a fresh
YANGDynClass with an argument runs _set in __init__, line 1134), the
overloaded sequence mutators (lines 1209-1245), and explicit presence
activation (_set_present, lines 1269-1274). -/
inductive MutOp
  | assign
  | append
  | insert
  | remove
  | extend
  | pop
  | setitem
  | presenceActivate
  deriving DecidableEq, Repr

/-- Effect of one mutating operation on the ancestor chain of the mutated
node.  Every sequence mutator and a value assignment call self._set()
with the default choice=False; _set_present first requires a container,
raises the presence-active flag and then calls self._set() (lines
1269-1274). -/
def applyMut (chain : List TNode) (op : MutOp) : Res (List TNode) :=
  match op with
  | .presenceActivate =>
    match chain with
    | [] => .ok []
    | n :: ancestors =>
      if n.isContainer then setChain ({ n with cpresent := true } :: ancestors) none
      else .err .attrError
  | _ => setChain chain none

/-- The fields of every case entry whose case tuple differs from the case
tuple in use, in declaration order. -/
def entriesFields (entries : List (List String × List String))
    (used : List String) : List String :=
  match entries with
  | [] => []
  | (cs, fields) :: rest =>
    if cs = used then entriesFields rest used
    else fields ++ entriesFields rest used

/-- The sibling fields the claim expects _set to evict at one nesting
level: all fields of the cases different from the case tuple in use. -/
def sibLevel (n : TNode) (ctx : ChoiceCtx) (lvl : Nat) : List String :=
  entriesFields ((lookupChoices n.choicesMap (ctx.choices.take lvl)).getD [])
    (ctx.cases.take lvl)

/-- The sibling fields over the nesting levels lvl, lvl-1, ..., 1. -/
def sibGo (n : TNode) (ctx : ChoiceCtx) : Nat → List String
  | 0 => []
  | lvl + 1 => sibLevel n ctx (lvl + 1) ++ sibGo n ctx lvl

/-- All sibling fields of differing cases, innermost level first. -/
def siblingFields (n : TNode) (ctx : ChoiceCtx) : List String :=
  sibGo n ctx ctx.choices.length

/-- A node returned by a PathIndex query, as ReferencePathType inspects
it: the _is_keyval flag (line 1347), whether is_yang_list holds for it
(line 1347, covering lists and leaf-lists), whether it is specifically a
leaf-list (line 1371), its scalar value, and for a leaf-list its
elements. -/
structure Target where
  isKeyval : Bool
  isList : Bool
  isLeafList : Bool
  value : PyVal
  elems : List PyVal
  deriving DecidableEq, Repr

/-- Modelled from the spec: the external PathIndex service maps tree paths
to live nodes; get(path) returns the ordered sequence of matching nodes
(the caller-relative resolution is folded into the path key). -/
def Store := List (String × List Target)

/-- Modelled from the spec: the PathIndex get query. -/
def storeGet : Store → String → List Target
  | [], _ => []
  | (p, ts) :: rest, q => if p = q then ts else storeGet rest q

/-- Modelled from the spec: the generated accessor contract.  The write
accessor set_name(value) invoked through path_chk[0]._parent (line 1359)
overwrites the value of the referenced leaf, which future PathIndex
queries observe. -/
def storeSet (s : Store) (p : String) (v : PyVal) : Store :=
  s.map (fun e => if e.1 = p then (e.1, e.2.map (fun t => { t with value := v })) else e)

/-- A constructed ReferencePathType instance: the referenced path, the
stored _referenced_object snapshot (False modelled as none), the _ptr
live-pointer flag and the require-instance flag. -/
structure RefObj where
  referencedPath : String
  refObj : Option PyVal
  ptr : Bool
  requireInstance : Bool
  deriving DecidableEq, Repr

/-- The reference object produced by the live-pointer branch. -/
def mkPtrRef (path : String) (reqInst : Bool) : RefObj :=
  { referencedPath := path, refObj := none, ptr := true, requireInstance := reqInst }

/-- The reference object produced by the snapshot branches. -/
def mkSnapRef (path : String) (reqInst : Bool) (obj : Option PyVal) : RefObj :=
  { referencedPath := path, refObj := obj, ptr := false, requireInstance := reqInst }

/-- The element search of the require-instance branch over a single
leaf-list result (lines 1371-1378): the first element whose text form
equals the text form of the value, stopping at the first match. -/
def refFindElem : List PyVal → PyVal → Option PyVal
  | [], _ => none
  | e :: rest, v => if pyText e = pyText v then some e else refFindElem rest v

/-- The node search of the require-instance branch over the query results
(lines 1380-1384): the loop does not break, so the last matching node
wins; the captured snapshot is its value. -/
def refFind (targets : List Target) (v : PyVal) : Option PyVal :=
  targets.foldl
    (fun acc t => if pyText t.value = pyText v then some t.value else acc) none

/-- ReferencePathType.__init__ with a path helper present (lines
1320-1396), returning the constructed reference together with the
PathIndex-visible state.  With no initial value nothing is resolved; with
a value, a single query result that is neither a list key nor a list
becomes a live pointer and the value is written through the target write
accessor; otherwise require-instance searches for a text match and raises
the dangling-reference error when none exists, and without
require-instance the raw value is stored as the snapshot. -/
def refConstruct (s : Store) (path : String) (reqInst : Bool)
    (v? : Option PyVal) : Res (RefObj × Store) :=
  match v? with
  | none => .ok (mkSnapRef path reqInst none, s)
  | some value =>
    match storeGet s path with
    | [t] =>
      if !t.isKeyval && !t.isList then
        .ok (mkPtrRef path reqInst, storeSet s path value)
      else if reqInst then
        if t.isLeafList then
          match refFindElem t.elems value with
          | some e => .ok (mkSnapRef path reqInst (some e), s)
          | none => .err .danglingRef
        else
          match refFind [t] value with
          | some w => .ok (mkSnapRef path reqInst (some w), s)
          | none => .err .danglingRef
      else .ok (mkSnapRef path reqInst (some value), s)
    | other =>
      if reqInst then
        match refFind other value with
        | some w => .ok (mkSnapRef path reqInst (some w), s)
        | none => .err .danglingRef
      else .ok (mkSnapRef path reqInst (some value), s)

/-- ReferencePathType._get backed by _get_ptr (lines 1398-1413): a live
pointer re-queries the PathIndex on every read and requires the query to
still yield exactly one node; a snapshot returns the stored
_referenced_object without consulting the index. -/
def refGet (r : RefObj) (s : Store) : Res (Option PyVal) :=
  if r.ptr then
    match storeGet s r.referencedPath with
    | [t] => .ok (some t.value)
    | _ => .err .invalidPtr
  else .ok r.refObj

/-- Abstract stand-in for the compiled, anchored pattern "[a-z]+": a
nonempty all-lowercase string. -/
def patLower : String → Bool :=
  fun s =>
    match s.data with
    | [] => false
    | l => l.all Char.isLower

/-- A restricted string type carrying two restriction categories, a
pattern and a length 1..2. -/
def specPatLen : RSpec :=
  { base := .str, tests := [.pattern patLower, .length [.lowHigh (some 1) (some 2)]] }

/-- A restricted string type with one pattern restriction. -/
def specPat : RSpec :=
  { base := .str, tests := [.pattern patLower] }

/-- A restricted string type whose single pattern rejects every value. -/
def specRejectAll : RSpec :=
  { base := .str, tests := [.pattern (fun _ => false)] }

/-- A plain leaf node with no choice membership. -/
def leaf0 : TNode :=
  { mchanged := false, presence := false, cpresent := false, isContainer := false,
    choice := none, choicesMap := [], hooks := [] }

/-- A plain container node with no choice membership. -/
def root0 : TNode :=
  { leaf0 with isContainer := true }

/-- A container holding one choice "ch" with cases "a" (field x) and "b"
(field y), both unset hooks present. -/
def chGood : TNode :=
  { mchanged := false, presence := false, cpresent := false, isContainer := true,
    choice := none,
    choicesMap := [(["ch"], [(["a"], ["x"]), (["b"], ["y"])])],
    hooks := ["x", "y"] }

/-- The same container with the unset hook of field y missing. -/
def chBad : TNode :=
  { chGood with hooks := ["x"] }

/-- The choice context of a member of case a of choice ch. -/
def ctx0 : ChoiceCtx :=
  { choices := ["ch"], cases := ["a"] }

/-- A query target that is an ordinary leaf (not a list key, not a list). -/
def tgtLeaf : Target :=
  { isKeyval := false, isList := false, isLeafList := false, value := .int 7, elems := [] }

/-- A query target that is a list-key leaf. -/
def tgtKey : Target :=
  { isKeyval := true, isList := false, isLeafList := false, value := .int 7, elems := [] }

/-- A PathIndex holding the ordinary leaf under path p. -/
def store7 : Store :=
  [("p", [tgtLeaf])]

/-- A PathIndex holding the list-key leaf under path p. -/
def storeKey : Store :=
  [("p", [tgtKey])]

theorem andLoop_ok_iff (ts : List RTest) (v : PyVal) :
    andLoop ts v = .ok () ↔ ∀ t ∈ ts, runTest t v = some true := by
  induction ts with
  | nil => simp [andLoop]
  | cons t ts ih =>
    cases h : runTest t v with
    | none => simp [andLoop, h, List.forall_mem_cons]
    | some b =>
      cases b with
      | false => simp [andLoop, h, List.forall_mem_cons]
      | true => simp [andLoop, h, List.forall_mem_cons, ih]

/-- C10: constructing a restricted scalar with no initial-value argument
never runs a restriction predicate and always succeeds with the base
default, for every configuration of restriction tests, including (second
conjunct) a configuration whose predicate rejects every value and in
particular the default empty string. -/
theorem C10_thm :
    (∀ spec : RSpec, rcConstruct spec none = .ok spec.base.defaultVal) ∧
    rcConstruct specRejectAll none = .ok (.str "") :=
  ⟨fun _ => rfl, rfl⟩

/-- C7 counterexample: with entries a (explicit value 5) and b (no value),
the code assigns b the integer 1, because the counter also advances over
the explicit entry a, while the numbering the claim describes assigns b
the integer 0 (0 is not claimed by any explicit value). -/
theorem C7_cex :
    autoNumber [("a", some 5), ("b", none)] = [("a", 5), ("b", 1)] ∧
    autoNumberSpec [("a", some 5), ("b", none)] = [("a", 5), ("b", 0)] ∧
    autoNumber [("a", some 5), ("b", none)] ≠
      autoNumberSpec [("a", some 5), ("b", none)] := by
  refine ⟨by decide, by decide, ?_⟩
  decide

theorem enumUsed_map_none (names : List String) :
    enumUsedValues (names.map (fun nm => (nm, (none : Option Int)))) = [] := by
  induction names with
  | nil => rfl
  | cons n ns ih => simp [enumUsedValues, List.filterMap_cons, ih]

theorem autoGo_map_none (names : List String) (c : Nat) :
    autoGo [] (names.map (fun nm => (nm, (none : Option Int)))) c =
      (List.enumFrom c names).map (fun p => (p.2, (p.1 : Int))) := by
  induction names generalizing c with
  | nil => rfl
  | cons n ns ih => simp [autoGo, List.enumFrom, skipUsed, ih]

/-- C7 amended: entries lacking an explicit value receive the value of a
counter that starts at 0 and advances once per entry, explicit or not, in
declaration order, after being advanced past the integers claimed by
explicit values; when no entry carries an explicit value the assignment is
therefore purely positional (first conjunct), so keys a, b, c with no
explicit values receive exactly 0, 1, 2; the second conjunct shows the
counter consuming a position for an explicit entry. -/
theorem C7_thm :
    (∀ names : List String, (∀ nm ∈ names, atPrefixed nm = false) →
        autoNumber (names.map (fun nm => (nm, (none : Option Int)))) =
          names.enum.map (fun p => (p.2, (p.1 : Int)))) ∧
    autoNumber [("a", some 5), ("b", none), ("c", none)] =
      [("a", 5), ("b", 1), ("c", 2)] := by
  refine ⟨?_, by decide⟩
  intro names hAt
  unfold autoNumber
  have hfilter :
      (names.map (fun nm => (nm, (none : Option Int)))).filter
          (fun e => !atPrefixed e.1) =
        names.map (fun nm => (nm, (none : Option Int))) := by
    rw [List.filter_eq_self]
    intro a ha
    obtain ⟨nm, hnm, rfl⟩ := List.mem_map.mp ha
    simp [hAt nm hnm]
  rw [hfilter, enumUsed_map_none, autoGo_map_none]
  rfl

/-- C7 witness: keys a, b, c with no explicit values are assigned exactly
0, 1 and 2 in declaration order. -/
theorem C7_witness :
    autoNumber [("a", none), ("b", none), ("c", none)] =
      [("a", 0), ("b", 1), ("c", 2)] :=
  C7_thm.1 ["a", "b", "c"] (by decide)

/-- C8: evaluated at the failing input, the sentinel precision=False
configuration still quantizes.  _precision is 10.0 ** 0 = 1.0, never
None, so 3.14 is quantized against Decimal(str(1.0)) = Decimal("1.0") and
comes out as 3.1, while the claim (no rounding, plain cast) requires
3.14. -/
theorem C8_thm :
    rpdNew none (some (157 / 50)) = 31 / 10 ∧
    rpdNewSpecNoPrecision (some (157 / 50)) = 157 / 50 ∧
    (31 / 10 : ℚ) ≠ 157 / 50 := by
  refine ⟨?_, rfl, by norm_num⟩
  show decimalQuantize (157 / 50) (quantDigits (precDigits none)) = 31 / 10
  have hq : quantDigits (precDigits none) = 1 := rfl
  rw [hq]
  unfold decimalQuantize roundHalfEven
  have hx : ((157 : ℚ) / 50) * 10 ^ 1 = 157 / 5 := by norm_num
  rw [hx]
  have hf : ⌊(157 : ℚ) / 5⌋ = 31 := by
    rw [Int.floor_eq_iff]
    norm_num
  rw [hf]
  norm_num

/-- C9 counterexample: on a uniqueness-mode list over (int,) already
holding 5, append of 5 raises no error at all: the guard silently skips
the value and the call returns with the list unchanged, while the claim
requires a rejection with an error. -/
theorem C9_cex :
    tlAppend [intCand] true [.int 5] (.int 5) = .ok [.int 5] := rfl

/-- C9 amended: insert of a value already present in a uniqueness-mode
list fails with the uniqueness error for every candidate configuration
(so the duplicate check precedes any coercion), while append returns
without error and leaves the list unchanged, and list initialisation
silently drops duplicated input values. -/
theorem C9_thm :
    (∀ (cands : List Cand) (lst : List PyVal) (i : Nat) (v : PyVal), v ∈ lst →
        tlInsert cands true lst i v = .err .uniqueError) ∧
    (∀ (cands : List Cand) (lst : List PyVal) (v : PyVal), v ∈ lst →
        tlAppend cands true lst v = .ok lst) ∧
    tlInit [intCand] true [.int 5, .int 5] = .ok [.int 5] := by
  refine ⟨?_, ?_, rfl⟩
  · intro cands lst i v hv
    simp [tlInsert, tlCheck, hv]
  · intro cands lst v hv
    simp [tlAppend, hv]

/-- C9 witness: on a uniqueness-mode list over (int,) holding 5, insert of
5 fails with the uniqueness error and append of 5 returns the unchanged
list. -/
theorem C9_witness :
    tlInsert [intCand] true [.int 5] 0 (.int 5) = .err .uniqueError ∧
    tlAppend [intCand] true [.int 5] (.int 5) = .ok [.int 5] :=
  ⟨C9_thm.1 [intCand] [.int 5] 0 (.int 5) (by decide),
   C9_thm.2.1 [intCand] [.int 5] (.int 5) (by decide)⟩

/-- C4 counterexample: constructing a tree node over the two-category
restricted type with the value "abc" fails (the __init__ re-check rejects
the length), yet the node path remains registered in the PathIndex: the
result pairs the raised error with a registered-path list holding the
path. -/
theorem C4_cex :
    dynConstruct specPatLen "node" [] (some (.str "abc")) =
      (.err .invalidValue, ["node"]) := rfl

/-- C4 amended: when the supplied initial value fails every configured
predicate, the wrapped __new__ raises before YANGBaseClass.__init__ runs,
the failure propagates, and the PathIndex is left exactly as it was; only
a value passing at least one predicate but failing the __init__ re-check
leaves a registered path behind. -/
theorem C4_thm (spec : RSpec) (regPath : String) (helper : List String)
    (v : PyVal) (e : Err) (h : rcNew spec (some v) = .err e) :
    dynConstruct spec regPath helper (some v) = (.err e, helper) := by
  simp only [dynConstruct, h]

/-- C4 witness: a value rejected by the single pattern predicate makes the
node construction fail with the validation error and leaves the
registered-path list untouched. -/
theorem C4_witness :
    dynConstruct specRejectAll "node" ["other"] (some (.str "a")) =
      (.err .invalidValue, ["other"]) :=
  C4_thm specRejectAll "node" ["other"] (.str "a") .invalidValue rfl

/-- C5 counterexample: a query for path p yielding exactly one result that
IS a list-key leaf is not resolved as a live Pointer: the reference comes
back with the pointer flag false holding a raw snapshot, and after the
target value is mutated from 7 to 9 a read through the reference still
returns 7. -/
theorem C5_cex :
    refConstruct storeKey "p" false (some (.int 7)) =
      .ok (mkSnapRef "p" false (some (.int 7)), storeKey) ∧
    (mkSnapRef "p" false (some (.int 7))).ptr = false ∧
    refGet (mkSnapRef "p" false (some (.int 7))) (storeSet storeKey "p" (.int 9)) =
      .ok (some (.int 7)) :=
  ⟨rfl, rfl, rfl⟩

/-- C5 amended: when the query for the referenced path yields exactly one
result that is neither a list-key leaf nor a list/leaf-list, the reference
resolves as a live Pointer: the initial value is written through the
target write accessor, the pointer flag is set, and every read re-queries
the index, returning whatever single node the index then holds. -/
theorem C5_thm (s : Store) (path : String) (reqInst : Bool) (v : PyVal)
    (t : Target) (h : storeGet s path = [t]) (hk : t.isKeyval = false)
    (hl : t.isList = false) :
    refConstruct s path reqInst (some v) =
      .ok (mkPtrRef path reqInst, storeSet s path v) ∧
    (mkPtrRef path reqInst).ptr = true ∧
    ∀ (s2 : Store) (t2 : Target), storeGet s2 path = [t2] →
      refGet (mkPtrRef path reqInst) s2 = .ok (some t2.value) := by
  refine ⟨?_, rfl, ?_⟩
  · simp [refConstruct, h, hk, hl]
  · intro s2 t2 h2
    simp [refGet, mkPtrRef, h2]

/-- C5 witness: over a store holding one ordinary leaf of value 7 under
path p, construction with initial value 7 resolves as a live Pointer, a
read before mutation returns 7, and after the target is mutated to 9
through its accessor a read returns 9. -/
theorem C5_witness :
    refConstruct store7 "p" false (some (.int 7)) =
      .ok (mkPtrRef "p" false, storeSet store7 "p" (.int 7)) ∧
    refGet (mkPtrRef "p" false) store7 = .ok (some (.int 7)) ∧
    refGet (mkPtrRef "p" false) (storeSet store7 "p" (.int 9)) =
      .ok (some (.int 9)) :=
  ⟨(C5_thm store7 "p" false (.int 7) tgtLeaf rfl rfl rfl).1,
   (C5_thm store7 "p" false (.int 7) tgtLeaf rfl rfl rfl).2.2 store7 tgtLeaf rfl,
   (C5_thm store7 "p" false (.int 7) tgtLeaf rfl rfl rfl).2.2
     (storeSet store7 "p" (.int 9)) { tgtLeaf with value := .int 9 } rfl⟩

/-- C1 counterexample: the two-category type (pattern and length 1..2)
rejects the value "abc" even though "abc" satisfies the configured pattern
predicate (second and third conjuncts: the pattern test passes and the OR
check of __new__ passes), because the __init__ re-check requires every
predicate: construction raises the validation error where the claim
requires success. -/
theorem C1_cex :
    rcConstruct specPatLen (some (.str "abc")) = .err .invalidValue ∧
    runTest (RTest.pattern patLower) (.str "abc") = some true ∧
    newCheck specPatLen.tests (.str "abc") = .ok true := by
  refine ⟨by decide, by decide, by decide⟩

/-- C1 amended: for a restricted string type with a nonempty set of
configured predicates, constructing an instance from a value succeeds
exactly when the value satisfies every configured predicate: the
OR-combination of __new__ is followed by the AND re-check of __init__, so
a value satisfying only some predicates still fails with InvalidValue,
and a value satisfying none fails already in __new__. -/
theorem C1_thm (spec : RSpec) (s : String) (hbase : spec.base = BType.str)
    (hne : spec.tests ≠ []) :
    rcConstruct spec (some (.str s)) = .ok (.str s) ↔
      ∀ t ∈ spec.tests, runTest t (.str s) = some true := by
  have hconv : spec.base.conv (.str s) = some (.str s) := by
    rw [hbase]; rfl
  constructor
  · intro h
    unfold rcConstruct at h
    cases hn : rcNew spec (some (.str s)) with
    | err e =>
      rw [hn] at h
      dsimp only at h
      exact absurd h (by simp)
    | ok obj =>
      rw [hn] at h
      dsimp only at h
      cases hc : checkFn spec (.str s) with
      | err e =>
        rw [hc] at h
        dsimp only at h
        exact absurd h (by simp)
      | ok u =>
        unfold checkFn at hc
        rw [hconv] at hc
        exact (andLoop_ok_iff _ _).mp (by cases u; exact hc)
  · intro hP
    obtain ⟨t0, ts0, hts⟩ := List.exists_cons_of_ne_nil hne
    have hOr : newCheck spec.tests (.str s) = .ok true := by
      rw [hts]
      have h0 := hP t0 (by rw [hts]; exact List.mem_cons_self _ _)
      simp [newCheck, orLoop, h0]
    have hAnd : andLoop spec.tests (.str s) = .ok () :=
      (andLoop_ok_iff _ _).mpr hP
    have hNew : rcNew spec (some (.str s)) = .ok (.str s) := by
      unfold rcNew
      dsimp only
      rw [hconv, ite_self]
      dsimp only
      rw [hOr]
    have hChk : checkFn spec (.str s) = .ok () := by
      unfold checkFn
      rw [hconv]
      exact hAnd
    unfold rcConstruct
    rw [hNew]
    dsimp only
    rw [hChk]

/-- C1 witness: the single-pattern restricted string type accepts "ab",
which satisfies its one configured predicate. -/
theorem C1_witness :
    rcConstruct specPat (some (.str "ab")) = .ok (.str "ab") :=
  (C1_thm specPat "ab" rfl (by simp [specPat])).mpr (by
    intro t ht
    rw [show specPat.tests = [RTest.pattern patLower] from rfl,
      List.mem_singleton] at ht
    subst ht
    rfl)

theorem nodeSet_ok_fst (n : TNode) (c : Option ChoiceCtx)
    (p : TNode × List String) (h : nodeSet n c = .ok p) : p.1 = markNode n := by
  cases c with
  | none =>
    unfold nodeSet at h
    cases h
    rfl
  | some ctx =>
    unfold nodeSet at h
    dsimp only at h
    cases he : evictAll n ctx with
    | err e => rw [he] at h; cases h
    | ok ev => rw [he] at h; cases h; rfl

theorem setChain_all_mchanged (chain : List TNode) :
    ∀ (c : Option ChoiceCtx) (out : List TNode),
      setChain chain c = .ok out → out.all (fun nd => nd.mchanged) = true := by
  induction chain with
  | nil =>
    intro c out h
    unfold setChain at h
    cases h
    rfl
  | cons n rest ih =>
    intro c out h
    unfold setChain at h
    cases hs : nodeSet n c with
    | err e => rw [hs] at h; cases h
    | ok p =>
      rw [hs] at h
      obtain ⟨n2, ev⟩ := p
      dsimp only at h
      cases hr : setChain rest n.choice with
      | err e => rw [hr] at h; cases h
      | ok rest2 =>
        rw [hr] at h
        cases h
        have hfst := nodeSet_ok_fst n c (n2, ev) hs
        simp only [List.all_cons]
        rw [show n2 = markNode n from hfst]
        simpa [markNode] using ih n.choice rest2 hr

/-- C2: every mutating operation (value assignment, the sequence mutators
append, insert, remove, extend, pop and item assignment, and explicit
presence activation), when it completes, sets the changed flag of the
mutated node and of every ancestor on the path to the root: the resulting
ancestor chain reports changed = true on every node. -/
theorem C2_thm (chain : List TNode) (op : MutOp) (out : List TNode)
    (h : applyMut chain op = .ok out) :
    out.all (fun nd => nd.mchanged) = true := by
  cases op with
  | presenceActivate =>
    cases chain with
    | nil =>
      unfold applyMut at h
      cases h
      rfl
    | cons n ancestors =>
      unfold applyMut at h
      dsimp only at h
      cases hc : n.isContainer with
      | false => rw [hc] at h; simp at h
      | true =>
        rw [hc] at h
        simp only [if_true] at h
        exact setChain_all_mchanged _ _ _ h
  | assign => exact setChain_all_mchanged _ _ _ h
  | append => exact setChain_all_mchanged _ _ _ h
  | insert => exact setChain_all_mchanged _ _ _ h
  | remove => exact setChain_all_mchanged _ _ _ h
  | extend => exact setChain_all_mchanged _ _ _ h
  | pop => exact setChain_all_mchanged _ _ _ h
  | setitem => exact setChain_all_mchanged _ _ _ h

/-- C2 witness: appending under a leaf with a container parent succeeds
and leaves both the leaf and its parent with changed = true. -/
theorem C2_witness :
    applyMut [leaf0, root0] .append = .ok [markNode leaf0, markNode root0] ∧
    ([markNode leaf0, markNode root0]).all (fun nd => nd.mchanged) = true :=
  ⟨rfl, C2_thm [leaf0, root0] .append [markNode leaf0, markNode root0] rfl⟩

theorem fieldsEvict_spec (fs hooks : List String) :
    fieldsEvict fs hooks =
      (if ∀ f ∈ fs, f ∈ hooks then .ok fs else .err .unmappedChoice) := by
  induction fs with
  | nil => simp [fieldsEvict]
  | cons f fs ih =>
    by_cases hf : f ∈ hooks
    · simp only [fieldsEvict, if_pos hf, ih]
      by_cases hall : ∀ x ∈ fs, x ∈ hooks
      · rw [if_pos hall, if_pos (List.forall_mem_cons.mpr ⟨hf, hall⟩)]
      · rw [if_neg hall, if_neg (fun hc => hall (List.forall_mem_cons.mp hc).2)]
    · simp only [fieldsEvict, if_neg hf]
      rw [if_neg (fun hc => hf (List.forall_mem_cons.mp hc).1)]

theorem entriesEvict_spec (entries : List (List String × List String))
    (used : List String) (hooks : List String) :
    entriesEvict entries used hooks =
      (if ∀ f ∈ entriesFields entries used, f ∈ hooks
       then .ok (entriesFields entries used)
       else .err .unmappedChoice) := by
  induction entries with
  | nil => simp [entriesEvict, entriesFields]
  | cons e rest ih =>
    obtain ⟨cs, fields⟩ := e
    by_cases hcs : cs = used
    · simp only [entriesEvict, entriesFields, if_pos hcs]
      exact ih
    · simp only [entriesEvict, entriesFields, if_neg hcs]
      rw [fieldsEvict_spec, ih]
      by_cases h1 : ∀ x ∈ fields, x ∈ hooks
      · rw [if_pos h1]
        by_cases h2 : ∀ x ∈ entriesFields rest used, x ∈ hooks
        · rw [if_pos h2, if_pos (List.forall_mem_append.mpr ⟨h1, h2⟩)]
        · rw [if_neg h2, if_neg (fun hc => h2 (List.forall_mem_append.mp hc).2)]
      · rw [if_neg h1, if_neg (fun hc => h1 (List.forall_mem_append.mp hc).1)]

theorem evictLevel_spec (n : TNode) (ctx : ChoiceCtx) (lvl : Nat)
    (h : (lookupChoices n.choicesMap (ctx.choices.take lvl)).isSome = true) :
    evictLevel n ctx lvl =
      (if ∀ f ∈ sibLevel n ctx lvl, f ∈ n.hooks then .ok (sibLevel n ctx lvl)
       else .err .unmappedChoice) := by
  obtain ⟨entries, he⟩ := Option.isSome_iff_exists.mp h
  unfold evictLevel sibLevel
  rw [he]
  simp only [Option.getD_some]
  exact entriesEvict_spec entries (ctx.cases.take lvl) n.hooks

theorem evictGo_spec (n : TNode) (ctx : ChoiceCtx) (lvl : Nat)
    (hlk : ∀ K, K < lvl →
      (lookupChoices n.choicesMap (ctx.choices.take (K + 1))).isSome = true) :
    evictGo n ctx lvl =
      (if ∀ f ∈ sibGo n ctx lvl, f ∈ n.hooks then .ok (sibGo n ctx lvl)
       else .err .unmappedChoice) := by
  induction lvl with
  | zero => simp [evictGo, sibGo]
  | succ L ih =>
    have hL := hlk L (Nat.lt_succ_self L)
    have ihL := ih (fun K hK => hlk K (Nat.lt_succ_of_lt hK))
    unfold evictGo
    rw [evictLevel_spec n ctx (L + 1) hL, ihL,
      show sibGo n ctx (L + 1) = sibLevel n ctx (L + 1) ++ sibGo n ctx L from rfl]
    by_cases h1 : ∀ f ∈ sibLevel n ctx (L + 1), f ∈ n.hooks
    · rw [if_pos h1]
      by_cases h2 : ∀ f ∈ sibGo n ctx L, f ∈ n.hooks
      · rw [if_pos h2, if_pos (List.forall_mem_append.mpr ⟨h1, h2⟩)]
      · rw [if_neg h2, if_neg (fun hc => h2 (List.forall_mem_append.mp hc).2)]
    · rw [if_neg h1, if_neg (fun hc => h1 (List.forall_mem_append.mp hc).1)]

/-- C3: a changed transition carrying a choice context on a node whose
__choices__ mapping covers every nesting-level prefix evicts, innermost
level first, every sibling field belonging to a case different from the
case in use, by invoking its unset hook (first conjunct, listing the
invoked hooks in order); and when any such sibling field lacks its unset
hook the transition fails with the fatal unmapped-choice error (second
conjunct). -/
theorem C3_thm (n : TNode) (ctx : ChoiceCtx)
    (hlk : (List.range ctx.choices.length).all
        (fun L => (lookupChoices n.choicesMap (ctx.choices.take (L + 1))).isSome) =
      true) :
    ((∀ f ∈ siblingFields n ctx, f ∈ n.hooks) →
        nodeSet n (some ctx) = .ok (markNode n, siblingFields n ctx)) ∧
    ((¬ ∀ f ∈ siblingFields n ctx, f ∈ n.hooks) →
        nodeSet n (some ctx) = .err .unmappedChoice) := by
  have hlk2 : ∀ K, K < ctx.choices.length →
      (lookupChoices n.choicesMap (ctx.choices.take (K + 1))).isSome = true := by
    intro K hK
    exact List.all_eq_true.mp hlk K (List.mem_range.mpr hK)
  have hev := evictGo_spec n ctx ctx.choices.length hlk2
  constructor
  · intro hAll
    unfold siblingFields at hAll ⊢
    unfold nodeSet evictAll
    dsimp only
    rw [hev, if_pos hAll]
  · intro hAll
    unfold siblingFields at hAll
    unfold nodeSet evictAll
    dsimp only
    rw [hev, if_neg hAll]

/-- C3 witness: on the container with choice ch (case a holding field x,
case b holding field y, both hooks present) the transition for case a
evicts exactly the sibling field y; and on the same container with the
hook of y missing, the transition fails with the unmapped-choice error. -/
theorem C3_witness :
    nodeSet chGood (some ctx0) = .ok (markNode chGood, siblingFields chGood ctx0) ∧
    nodeSet chBad (some ctx0) = .err .unmappedChoice :=
  ⟨(C3_thm chGood ctx0 (by decide)).1 (by decide),
   (C3_thm chBad ctx0 (by decide)).2 (by decide)⟩

theorem firstFit_eq_spec (cands : List Cand) (v : PyVal)
    (hwrap : ∀ c ∈ cands, c.instOf v = true → (c.wrap v).isSome = true) :
    firstFit cands v = firstFitSpec cands v := by
  induction cands with
  | nil => rfl
  | cons c rest ih =>
    have ihr := ih (fun c2 hc2 => hwrap c2 (List.mem_cons_of_mem _ hc2))
    cases hin : c.instOf v with
    | true =>
      obtain ⟨w, hw⟩ :=
        Option.isSome_iff_exists.mp (hwrap c (List.mem_cons_self _ _) hin)
      simp [firstFit, firstFitSpec, fitCand, candAccepts, hin, hw,
        List.findSome?_cons]
    | false =>
      cases hn : nonInstFit c v with
      | some w =>
        simp [firstFit, firstFitSpec, fitCand, candAccepts, hin, hn,
          List.findSome?_cons]
      | none =>
        simp only [firstFit, firstFitSpec, fitCand, candAccepts, hin,
          Bool.false_eq_true, if_false, hn, List.findSome?_cons]
        exact ihr

/-- C6: insertion into a typed sequence is first-fit over the declared
candidate order: when every candidate that exact-type-matches the value
can be wrapped, the candidate loop of check computes exactly the
first-accepting-candidate function described by the spec (first
conjunct), and over the single candidate tuple (int,) the value 5 is
accepted while "x", accepted by no candidate, fails with the
InvalidMember error (second and third conjuncts). -/
theorem C6_thm (cands : List Cand) (v : PyVal)
    (hwrap : ∀ c ∈ cands, c.instOf v = true → (c.wrap v).isSome = true) :
    firstFit cands v = firstFitSpec cands v ∧
    tlCheck [intCand] false [] (.int 5) = .ok (.int 5) ∧
    tlCheck [intCand] false [] (.str "x") = .err .invalidMember :=
  ⟨firstFit_eq_spec cands v hwrap, by decide, by decide⟩

/-- C6 witness: over the single-candidate tuple (int,), the candidate loop
agrees with the first-fit description, 5 is accepted and "x" fails with
InvalidMember. -/
theorem C6_witness :
    firstFit [intCand] (.int 5) = firstFitSpec [intCand] (.int 5) ∧
    tlCheck [intCand] false [] (.int 5) = .ok (.int 5) ∧
    tlCheck [intCand] false [] (.str "x") = .err .invalidMember :=
  C6_thm [intCand] (.int 5) (by
    intro c hc hin
    rw [List.mem_singleton] at hc
    subst hc
    rfl)

end Yangtypes
